import Mathlib

/-!
Verification development for the OnlinePBX call-notification bot
(`handlers.py`, `utils.py`, `api.py`, `config.py`).

The Python sources are shallowly embedded below: pure string helpers mirror
the Python string operations they translate, the checkpoint files are
explicit `Option` values threaded through the pipeline, and the Telegram
sends are driven by an oracle assigning an outcome to each send attempt.
-/

namespace OnlineBPX

/-! ## Python string primitives -/

/-- Boolean list check mirroring Python startswith on character lists:
`listPre p l` is true when `p` is an initial segment of `l`. -/
def listPre : List Char → List Char → Bool
  | [], _ => true
  | _ :: _, [] => false
  | a :: as, b :: bs => a == b && listPre as bs

/-- Contiguous-occurrence check on character lists: true when `needle`
occurs contiguously inside `hay`. -/
def listContainsSeg (needle : List Char) : List Char → Bool
  | [] => needle.isEmpty
  | c :: cs => listPre needle (c :: cs) || listContainsSeg needle cs

/-- Python membership test `needle in hay` on strings (contiguous
substring occurrence). -/
def pyIn (needle hay : String) : Bool :=
  listContainsSeg needle.toList hay.toList

/-- Python single-character `str.replace(c, rep)` (the source only calls
`replace` with one-character patterns). -/
def replaceChar (c : Char) (rep : String) (s : String) : String :=
  (s.toList.foldr (fun a acc => if a == c then rep.toList ++ acc else a :: acc) []).asString

/-- Python `str.lower()` restricted to ASCII case folding; every string the
source lowercases before comparing is ASCII. -/
def pyLower (s : String) : String :=
  (s.toList.map Char.toLower).asString

/-- Python `str.capitalize()` for ASCII text: first character uppercased,
the rest lowercased. -/
def pyCapitalize (s : String) : String :=
  match s.toList with
  | [] => ""
  | c :: cs => (c.toUpper :: cs.map Char.toLower).asString

/-- Helper for `pyTitle`: the flag records whether the previous character
was alphabetic. -/
def pyTitleGo : Bool → List Char → List Char
  | _, [] => []
  | prevAlpha, c :: cs =>
      (if c.isAlpha then (if prevAlpha then c.toLower else c.toUpper) else c) ::
        pyTitleGo c.isAlpha cs

/-- Python `str.title()` for ASCII text: uppercase an alphabetic character
that follows a non-alphabetic one, lowercase the rest. -/
def pyTitle (s : String) : String :=
  (pyTitleGo false s.toList).asString

/-- ASCII whitespace, the characters Python `str.strip()` removes from the
strings the source strips. -/
def asciiWS (c : Char) : Bool :=
  c == ' ' || c == '\t' || c == '\n' || c == '\x0d' || c == '\x0b' || c == '\x0c'

/-- Python `str.strip()` (ASCII whitespace). -/
def pyStrip (s : String) : String :=
  ((s.toList.dropWhile asciiWS).reverse.dropWhile asciiWS).reverse.asString

/-- Digit-run parser for Python `int(str)`: a nonempty digit sequence in
which single underscores may separate digits (Python number-literal
grouping); `acc` is the value of the digits consumed so far. -/
def pyDigitsGo : Nat → List Char → Option Nat
  | acc, [] => some acc
  | _, ['_'] => none
  | acc, '_' :: c :: cs =>
      if c.isDigit then pyDigitsGo (acc * 10 + (c.toNat - 48)) cs else none
  | acc, c :: cs =>
      if c.isDigit then pyDigitsGo (acc * 10 + (c.toNat - 48)) cs else none

/-- Python `int(str)` on a trimmed, sign-prefixed digit string; `none`
models the `ValueError` Python raises on any other input. -/
def pyInt (s : String) : Option Int :=
  match (pyStrip s).toList with
  | [] => none
  | '+' :: c :: cs =>
      if c.isDigit then (pyDigitsGo 0 (c :: cs)).map Int.ofNat else none
  | '-' :: c :: cs =>
      if c.isDigit then (pyDigitsGo 0 (c :: cs)).map (fun n => -(Int.ofNat n)) else none
  | c :: cs =>
      if c.isDigit then (pyDigitsGo 0 (c :: cs)).map Int.ofNat else none

/-- Fuelled worker for `pySplit`; `acc` collects the current segment in
reverse. Fuel `hay.length + 1` always suffices because each step consumes
at least one character of `hay`. -/
def pySplitGo (sep : List Char) : Nat → List Char → List Char → List (List Char)
  | 0, _, acc => [acc.reverse]
  | _ + 1, [], acc => [acc.reverse]
  | fuel + 1, c :: cs, acc =>
      if listPre sep (c :: cs) then
        acc.reverse :: pySplitGo sep fuel (List.drop (sep.length - 1) cs) []
      else
        pySplitGo sep fuel cs (c :: acc)

/-- Python `str.split(sep)` for a non-empty separator: the list of
segments between non-overlapping occurrences of `sep`, scanned left to
right. -/
def pySplit (s sep : String) : List String :=
  (pySplitGo sep.toList (s.length + 1) s.toList []).map List.asString

/-! ## Call records and the notification formatter (`utils.py`) -/

/-- Call record as consumed by `format_call_details` and
`process_new_calls`; the fields are the dictionary keys the source reads
(with their `dict.get` defaults materialised as ordinary field values). -/
structure CallRecord where
  uuid : String
  start_stamp : Int
  caller_id_number : String
  destination_number : String
  accountcode : String
  duration : Int
  user_talk_time : Int
  hangup_cause : String
  gateway : String
  contacted : Bool
  deriving Repr, DecidableEq

/-- CALL_ICONS table from `config.py` (the source file stores the icon
glyphs in a double-encoded form; the code points below are exactly the
characters the Python interpreter reads from it). -/
def CALL_ICONS : List (String × String) :=
  [("inbound", "\u00f0\u0178\u201c\u00a5"),
   ("outbound", "\u00f0\u0178\u201c\u00a4"),
   ("internal", "\u00f0\u0178\u201d\u201e"),
   ("unknown", "\u00f0\u0178\u201c\u017e")]

/-- HANGUP_CAUSES table from `config.py`. -/
def HANGUP_CAUSES : List (String × String) :=
  [("NORMAL_CLEARING", "Normal Hangup"),
   ("USER_BUSY", "User Busy"),
   ("NO_ANSWER", "No Answer"),
   ("CALL_REJECTED", "Call Rejected"),
   ("ORIGINATOR_CANCEL", "Caller Cancelled"),
   ("UNALLOCATED_NUMBER", "Invalid Number"),
   ("NO_USER_RESPONSE", "No Response"),
   ("NORMAL_UNSPECIFIED", "Normal Unspecified"),
   ("NORMAL_TEMPORARY_FAILURE", "Temporary Failure"),
   ("RECOVERY_ON_TIMER_EXPIRE", "Timeout"),
   ("REQUESTED_CHAN_UNAVAIL", "Channel Unavailable")]

/-- Python `dict.get(key, default)` over an association list. -/
def dictGet (d : List (String × String)) (key default_ : String) : String :=
  ((d.find? (fun p => p.1 == key)).map (·.2)).getD default_

/-- format_duration from `utils.py`. Divisions follow Python `//` and `%`,
which agree with `Int.ediv`/`Int.emod` for the positive divisor 60. -/
def format_duration (seconds : Int) : String :=
  if seconds < 60 then
    toString seconds ++ " sec"
  else
    let minutes := seconds.ediv 60
    let remaining_seconds := seconds.emod 60
    if minutes < 60 then
      toString minutes ++ " min " ++ toString remaining_seconds ++ " sec"
    else
      let hours := minutes.ediv 60
      let remaining_minutes := minutes.emod 60
      toString hours ++ " hr " ++ toString remaining_minutes ++ " min " ++
        toString remaining_seconds ++ " sec"

/-- Markdown-style escaping applied to the caller, destination and gateway
fields in format_call_details: each underscore and asterisk gains a leading backslash. -/
def escapeField (s : String) : String :=
  replaceChar '*' "\\*" (replaceChar '_' "\\_" s)

/-- format_call_details from `utils.py`. `fmtTime` abstracts
`datetime.fromtimestamp` composed with `strftime`, whose result
depends on the host timezone; everything else is built exactly as the
source's f-string does (the decoration glyphs are the characters the
interpreter reads from the double-encoded source file). -/
def format_call_details (fmtTime : Int → String) (call : CallRecord) : String :=
  let formatted_time := fmtTime call.start_stamp
  let account := call.accountcode
  let direction_icon := dictGet CALL_ICONS account (dictGet CALL_ICONS "unknown" "")
  let caller := escapeField call.caller_id_number
  let destination := escapeField call.destination_number
  let formatted_duration := format_duration call.duration
  let formatted_talk_time := format_duration call.user_talk_time
  let hangup_cause := call.hangup_cause
  let friendly_hangup :=
    dictGet HANGUP_CAUSES hangup_cause (pyTitle (replaceChar '_' " " hangup_cause))
  let gateway := escapeField call.gateway
  let contacted := if call.contacted then "\u201a\u00fa\u00d6 Yes" else "\u201a\u00f9\u00e5 No"
  direction_icon ++ " <b>Call Record</b>\n\n" ++
    "\u201a\u00e8\u221e <b>Time:</b> " ++ formatted_time ++ "\n" ++
    "\uf8ff\u00fc\u00ec\u00b1 <b>From:</b> " ++ caller ++ "\n" ++
    "\uf8ff\u00fc\u00ec\u2264 <b>To:</b> " ++ destination ++ "\n" ++
    "\uf8ff\u00fc\u00ee\u00c4 <b>Gateway:</b> " ++ gateway ++ "\n" ++
    "\u201a\u00e8\u00b1 <b>Duration:</b> " ++ formatted_duration ++ "\n" ++
    "\uf8ff\u00fc\u00ed\u00a8 <b>Talk Time:</b> " ++ formatted_talk_time ++ "\n" ++
    "\uf8ff\u00fc\u00ed\u00ba <b>Type:</b> " ++ pyCapitalize account ++ "\n" ++
    "\uf8ff\u00fc\u00ec\u00fb <b>Contacted:</b> " ++ contacted ++ "\n" ++
    "\uf8ff\u00fc\u00ec\u00f9 <b>Result:</b> " ++ friendly_hangup

/-! ## Checkpoint writes at the file level (`utils.py` 42-54 / 78-90) -/

/-- File-level model of `save_last_check_time` / `save_last_call_uuid`
(utils.py lines 42-54 and 78-90): `open(path, 'w')` first truncates the
file to empty, then the write fills in the payload left to right; the
list gives every content state the file passes through, in order. An
interruption mid-write leaves the file in one of these states. -/
def saveValueWriteStates (old new : String) : List String :=
  old :: (List.range (new.length + 1)).map (fun k => (new.toList.take k).asString)

/-! ## The delivery pipeline (`handlers.py`) -/

/-- Outcome the Telegram API gives one send attempt (`bot.send_audio` /
`bot.send_message`): success, an `ApiTelegramException` whose `str(e)` is
`msg`, or any other exception. -/
inductive SendOutcome
  | ok
  | apiExn (msg : String)
  | exn
  deriving Repr, DecidableEq

/-- Message successfully delivered to the Telegram channel. -/
inductive ChanMsg
  | audio (caption : String)
  | text (body : String)
  deriving Repr, DecidableEq

/-- Python exception escaping `process_new_calls` / `get_period_calls`
uncaught: the IndexError/ValueError from the rate-limit parse on line 133,
the ValueError `time.sleep` raises on a negative duration, or a failure of
an unguarded `bot.send_message(chat_id, ...)` status send. -/
inductive PyExn
  | retryParse (msg : String)
  | negativeSleep
  | chatSendError
  deriving Repr, DecidableEq

/-- External collaborators of one pipeline invocation: the API client
results, the archive-resolution result, the filesystem predicates used on
extracted audio files, and the oracle assigning each send attempt (in
order, counted by `St.attempts`) its outcome. -/
structure Env where
  authOk : Bool
  callDetails : Option (List CallRecord)
  downloadUrl : Bool
  archive : Option (List (String × String))
  isFile : String → Bool
  fileExists : String → Bool
  fileSize : String → Nat
  outcomes : Nat → SendOutcome
  rmtreeOk : Bool
  fmtTime : Int → String

/-- State threaded through one invocation: the two checkpoint files
(`fsCheck` = content of last_check_time.txt as the integer it stores,
`fsUuid` = content of last_call_uuid.txt), the log of checkpoint writes,
the delivered channel and chat messages, the sleeps performed, the
processed-call counter, the send-attempt counter, whether the archive
scratch directory is currently on disk, and the resume flag
`found_last_call`. -/
structure St where
  fsCheck : Option Int
  fsUuid : Option String
  checkWrites : List Int
  uuidWrites : List String
  sends : List ChanMsg
  chatSends : List String
  sleeps : List Int
  count : Nat
  attempts : Nat
  scratch : Bool
  foundLast : Bool
  deriving Repr, DecidableEq

/-- Fresh per-invocation state over given checkpoint-file contents. -/
def initSt (fsCheck : Option Int) (fsUuid : Option String) : St :=
  { fsCheck := fsCheck, fsUuid := fsUuid, checkWrites := [], uuidWrites := [],
    sends := [], chatSends := [], sleeps := [], count := 0, attempts := 0,
    scratch := false, foundLast := false }

/-- save_last_check_time (utils.py 42-54): overwrite the timestamp file. -/
def save_last_check_time (st : St) (t : Int) : St :=
  { st with fsCheck := some t, checkWrites := st.checkWrites ++ [t] }

/-- save_last_call_uuid (utils.py 78-90): overwrite the uuid file. -/
def save_last_call_uuid (st : St) (u : String) : St :=
  { st with fsUuid := some u, uuidWrites := st.uuidWrites ++ [u] }

/-- get_last_check_time (utils.py 15-39). A present file holds the integer
a previous save wrote, so the `int()` parse succeeds; an absent file makes
the function persist and return `now - 24*60*60`. -/
def get_last_check_time (st : St) (now : Int) : Int × St :=
  match st.fsCheck with
  | some t => (t, st)
  | none => (now - 86400, save_last_check_time st (now - 86400))

/-- get_last_call_uuid (utils.py 57-75): stripped file content, or the
empty string when the file is absent. -/
def get_last_call_uuid (st : St) : String :=
  match st.fsUuid with
  | some s => pyStrip s
  | none => ""

/-- Python truthiness test `if not call_details` on the
`api.get_call_details` result: true for `None` (API error) and for the
empty list. -/
def detailsFalsy : Option (List CallRecord) → Bool
  | none => true
  | some l => l.isEmpty

/-- Whether the invocation created an archive scratch directory that is
now on disk: a truthy download URL was returned and
`download_and_extract_audio_archive` succeeded (on each of its own failure
paths it removes the directory itself and returns `(None, {})`,
utils.py 170-250). -/
def archiveScratch (env : Env) : Bool :=
  env.downloadUrl && env.archive.isSome

/-- The `audio_files` mapping in iteration order (filename, filepath). -/
def archiveFiles (env : Env) : List (String × String) :=
  if env.downloadUrl then env.archive.getD [] else []

/-- Audio matching in process_new_calls (handlers.py 86-93): when the
scratch directory exists, the first archive entry whose filename contains
the uuid and whose path is a regular file. -/
def audioPathFor (env : Env) (scratch : Bool) (uuid : String) : Option String :=
  if scratch then
    ((archiveFiles env).find? (fun af => pyIn uuid af.1 && env.isFile af.2)).map (·.2)
  else none

/-- Rate-limit wait extraction from handlers.py line 133,
`int(str(e).split("retry after ")[1])`; `none` models the IndexError or
ValueError the expression raises, which nothing catches. -/
def parseRetryAfter (emsg : String) : Option Int :=
  match (pySplit emsg "retry after ").get? 1 with
  | none => none
  | some part => pyInt part

/-- Marker appended to the plain text-only message (handlers.py 117). -/
def suffixPlain : String := "\n\n⚠️ <i>Recording couldn\x27t be sent</i>"

/-- Marker appended after a successful rate-limit retry (handlers.py 140). -/
def suffixRateLimited : String := "\n\n⚠️ <i>Recording couldn\x27t be sent (rate limited)</i>"

/-- Marker appended on the API-error fallback (handlers.py 155). -/
def suffixApiError : String := "\n\n⚠️ <i>Recording couldn\x27t be sent (API error)</i>"

/-- Marker appended on the generic-exception fallback (handlers.py 170). -/
def suffixProcError : String := "\n\n⚠️ <i>Recording couldn\x27t be sent (processing error)</i>"

/-- Success epilogue of the per-call try block (handlers.py 122-129):
increment the counter, persist both checkpoint values, sleep one second. -/
def recordSuccess (st : St) (call : CallRecord) : St :=
  let st := { st with count := st.count + 1 }
  let st := save_last_check_time st call.start_stamp
  let st := save_last_call_uuid st call.uuid
  { st with sleeps := st.sleeps ++ [1] }

/-- Audio-send attempt of the per-call try block (handlers.py 86-110):
match an audio file, and if one exists with positive size attempt
`bot.send_audio`; its failures are swallowed by the inner `except` on line
109, leaving `sent` false. -/
def attemptAudio (env : Env) (st : St) (call : CallRecord) (message : String) : Bool × St :=
  match audioPathFor env st.scratch call.uuid with
  | some p =>
      if p != "" && env.fileExists p && decide (0 < env.fileSize p) then
        match env.outcomes st.attempts with
        | .ok =>
            (true,
              { st with
                attempts := st.attempts + 1,
                sends := st.sends ++ [.audio message] })
        | _ => (false, { st with attempts := st.attempts + 1 })
      else (false, st)
  | none => (false, st)

/-- Text-only send on handlers.py line 115 together with the outer
`except` clauses of the per-call try block (lines 131-178): a rate-limited
`ApiTelegramException` waits `retry_time + 1` seconds and retries once
text-only, persisting only the uuid on success; any other
`ApiTelegramException` or exception sends one text-only fallback,
persisting only the uuid on success; a plain success runs the full
epilogue `recordSuccess`. -/
def sendTextHandlers (env : Env) (st1 : St) (call : CallRecord) (message : String) :
    St × Option PyExn :=
  match env.outcomes st1.attempts with
  | .ok =>
      (recordSuccess
        { st1 with
          attempts := st1.attempts + 1,
          sends := st1.sends ++ [.text (message ++ suffixPlain)] } call, none)
  | .apiExn emsg =>
      let st2 := { st1 with attempts := st1.attempts + 1 }
      if pyIn "retry after" (pyLower emsg) then
        match parseRetryAfter emsg with
        | none => (st2, some (.retryParse emsg))
        | some retry_time =>
            if retry_time + 1 < 0 then (st2, some .negativeSleep)
            else
              let st3 := { st2 with sleeps := st2.sleeps ++ [retry_time + 1] }
              match env.outcomes st3.attempts with
              | .ok =>
                  (save_last_call_uuid
                    { st3 with
                      attempts := st3.attempts + 1,
                      sends := st3.sends ++ [.text (message ++ suffixRateLimited)],
                      count := st3.count + 1 } call.uuid, none)
              | _ => ({ st3 with attempts := st3.attempts + 1 }, none)
      else
        match env.outcomes st2.attempts with
        | .ok =>
            (save_last_call_uuid
              { st2 with
                attempts := st2.attempts + 1,
                sends := st2.sends ++ [.text (message ++ suffixApiError)],
                count := st2.count + 1 } call.uuid, none)
        | _ => ({ st2 with attempts := st2.attempts + 1 }, none)
  | .exn =>
      let st2 := { st1 with attempts := st1.attempts + 1 }
      match env.outcomes st2.attempts with
      | .ok =>
          (save_last_call_uuid
            { st2 with
              attempts := st2.attempts + 1,
              sends := st2.sends ++ [.text (message ++ suffixProcError)],
              count := st2.count + 1 } call.uuid, none)
      | _ => ({ st2 with attempts := st2.attempts + 1 }, none)

/-- Body of the per-call loop of process_new_calls (handlers.py 78-178)
for one record that passed the resume filter: format the message, attempt
the audio send, and if nothing was sent yet run the text-only send with
its exception handlers; a successful audio send runs the epilogue
`recordSuccess` directly (handlers.py 113 skips the text send). -/
def processCall (env : Env) (st : St) (call : CallRecord) : St × Option PyExn :=
  let message := format_call_details env.fmtTime call
  match attemptAudio env st call message with
  | (true, st1) => (recordSuccess st1 call, none)
  | (false, st1) => sendTextHandlers env st1 call message

/-- Per-call loop of process_new_calls (handlers.py 69-178) including the
resume filter (lines 72-76): while `found_last_call` is false every record
is skipped, the one whose uuid equals `last_uuid` merely flipping the
flag. -/
def processLoop (env : Env) (last_uuid : String) : St → List CallRecord → St × Option PyExn
  | st, [] => (st, none)
  | st, call :: rest =>
      if st.foundLast then
        match processCall env st call with
        | (st1, none) => processLoop env last_uuid st1 rest
        | (st1, some e) => (st1, some e)
      else
        if call.uuid == last_uuid then
          processLoop env last_uuid { st with foundLast := true } rest
        else
          processLoop env last_uuid st rest

/-- Sort key relation of `sorted(call_details, key=lambda x:
x.get('start_stamp', 0))`. -/
def stampLE (a b : CallRecord) : Prop :=
  a.start_stamp ≤ b.start_stamp

instance : DecidableRel stampLE := fun a b => Int.decLe a.start_stamp b.start_stamp

instance : IsTotal CallRecord stampLE := ⟨fun a b => Int.le_total a.start_stamp b.start_stamp⟩

instance : IsTrans CallRecord stampLE := ⟨fun _ _ _ => Int.le_trans⟩

/-- Python `sorted(call_details, key=lambda x: x.get('start_stamp', 0))`.
Python's `sorted` is the stable ascending sort on the key, and the stable
sort of a list is unique, so the structurally recursive stable
`List.insertionSort` computes exactly it. -/
def sortRecords (l : List CallRecord) : List CallRecord :=
  l.insertionSort stampLE

/-- Temp-directory cleanup (handlers.py 181-186 and 330-335): remove the
scratch directory if it exists; an `shutil.rmtree` failure is caught and
leaves it in place. -/
def cleanupTempDir (env : Env) (st : St) : St :=
  if st.scratch then (if env.rmtreeOk then { st with scratch := false } else st) else st

/-- process_new_calls (handlers.py 21-193). Returns the final state, an
uncaught exception if one escaped, and the Python return value (0 on an
exception, whose propagation yields no return value). Lines 191-192 are
unreachable: the falsy test on line 45 already filtered out the empty
list. -/
def process_new_calls (env : Env) (now : Int)
    (fsCheck : Option Int) (fsUuid : Option String) : St × Option PyExn × Nat :=
  let st := initSt fsCheck fsUuid
  if !env.authOk then (st, none, 0)
  else
    let readSt := get_last_check_time st now
    let st := readSt.2
    let last_uuid := get_last_call_uuid st
    if detailsFalsy env.callDetails then
      (save_last_check_time st now, none, 0)
    else
      let call_details := env.callDetails.getD []
      let st := { st with scratch := archiveScratch env }
      let sorted_calls := sortRecords call_details
      let st := { st with foundLast := last_uuid == "" }
      match processLoop env last_uuid st sorted_calls with
      | (st1, some e) => (st1, some e, 0)
      | (st1, none) =>
          let st2 := cleanupTempDir env st1
          (st2, none, st2.count)

/-! ## get_period_calls (`handlers.py` 196-339) -/

/-- Unguarded status send `bot.send_message(chat_id, ...)` in
get_period_calls; an API failure here escapes the function. -/
def chatSend (env : Env) (st : St) (msg : String) : St × Option PyExn :=
  match env.outcomes st.attempts with
  | .ok =>
      ({ st with
         attempts := st.attempts + 1,
         chatSends := st.chatSends ++ [msg] }, none)
  | _ => ({ st with attempts := st.attempts + 1 }, some .chatSendError)

/-- Audio matching in get_period_calls (handlers.py 246-252), which unlike
`audioPathFor` also requires a positive file size at match time. -/
def audioPathForPeriod (env : Env) (scratch : Bool) (uuid : String) : Option String :=
  if scratch then
    ((archiveFiles env).find?
      (fun af => pyIn uuid af.1 && env.isFile af.2 && decide (0 < env.fileSize af.2))).map (·.2)
  else none

/-- Audio-send attempt of the get_period_calls loop (handlers.py 245-269),
identical to `attemptAudio` except for the size check inside the matching
step. -/
def attemptAudioPeriod (env : Env) (st : St) (call : CallRecord) (message_text : String) :
    Bool × St :=
  match audioPathForPeriod env st.scratch call.uuid with
  | some p =>
      if p != "" && env.fileExists p && decide (0 < env.fileSize p) then
        match env.outcomes st.attempts with
        | .ok =>
            (true,
              { st with
                attempts := st.attempts + 1,
                sends := st.sends ++ [.audio message_text] })
        | _ => (false, { st with attempts := st.attempts + 1 })
      else (false, st)
  | none => (false, st)

/-- Text-only send of the get_period_calls loop with its `except` clauses
(handlers.py 272-327): the same rate-limit / fallback structure as
`sendTextHandlers`, but only `sent_count` is incremented — the checkpoint
files are never touched. -/
def sendTextPeriod (env : Env) (st1 : St) (message_text : String) : St × Option PyExn :=
  match env.outcomes st1.attempts with
  | .ok =>
      ({ st1 with
         attempts := st1.attempts + 1,
         sends := st1.sends ++ [.text (message_text ++ suffixPlain)],
         count := st1.count + 1,
         sleeps := st1.sleeps ++ [1] }, none)
  | .apiExn emsg =>
      let st2 := { st1 with attempts := st1.attempts + 1 }
      if pyIn "retry after" (pyLower emsg) then
        match parseRetryAfter emsg with
        | none => (st2, some (.retryParse emsg))
        | some retry_time =>
            if retry_time + 1 < 0 then (st2, some .negativeSleep)
            else
              let st3 := { st2 with sleeps := st2.sleeps ++ [retry_time + 1] }
              match env.outcomes st3.attempts with
              | .ok =>
                  ({ st3 with
                     attempts := st3.attempts + 1,
                     sends := st3.sends ++ [.text (message_text ++ suffixRateLimited)],
                     count := st3.count + 1 }, none)
              | _ => ({ st3 with attempts := st3.attempts + 1 }, none)
      else
        match env.outcomes st2.attempts with
        | .ok =>
            ({ st2 with
               attempts := st2.attempts + 1,
               sends := st2.sends ++ [.text (message_text ++ suffixApiError)],
               count := st2.count + 1 }, none)
        | _ => ({ st2 with attempts := st2.attempts + 1 }, none)
  | .exn =>
      let st2 := { st1 with attempts := st1.attempts + 1 }
      match env.outcomes st2.attempts with
      | .ok =>
          ({ st2 with
             attempts := st2.attempts + 1,
             sends := st2.sends ++ [.text (message_text ++ suffixProcError)],
             count := st2.count + 1 }, none)
      | _ => ({ st2 with attempts := st2.attempts + 1 }, none)

/-- Body of the per-call loop of get_period_calls (handlers.py 237-327). -/
def processCallPeriod (env : Env) (st : St) (call : CallRecord) : St × Option PyExn :=
  let message_text := format_call_details env.fmtTime call
  match attemptAudioPeriod env st call message_text with
  | (true, st1) => ({ st1 with count := st1.count + 1, sleeps := st1.sleeps ++ [1] }, none)
  | (false, st1) => sendTextPeriod env st1 message_text

/-- Per-call loop of get_period_calls (handlers.py 237-327); no resume
filter. -/
def periodLoop (env : Env) : St → List CallRecord → St × Option PyExn
  | st, [] => (st, none)
  | st, call :: rest =>
      match processCallPeriod env st call with
      | (st1, none) => periodLoop env st1 rest
      | (st1, some e) => (st1, some e)

/-- get_period_calls (handlers.py 196-339). `start_time` and `end_time`
only parameterise the API requests whose results `env` already carries. -/
def get_period_calls (env : Env) (start_time end_time : Int) (period_name : String)
    (fsCheck : Option Int) (fsUuid : Option String) : St × Option PyExn × Nat :=
  let _ := start_time
  let _ := end_time
  let st := initSt fsCheck fsUuid
  if !env.authOk then
    match chatSend env st "Failed to authenticate with OnlinePBX API" with
    | (st1, e) => (st1, e, 0)
  else if detailsFalsy env.callDetails then
    match chatSend env st ("No calls found for " ++ period_name) with
    | (st1, e) => (st1, e, 0)
  else
    let call_details := env.callDetails.getD []
    match chatSend env st
        ("Found " ++ toString call_details.length ++ " calls for " ++ period_name ++
          ". Sending to channel...") with
    | (st1, some e) => (st1, some e, 0)
    | (st1, none) =>
        let st2 := { st1 with scratch := archiveScratch env }
        match periodLoop env st2 (sortRecords call_details) with
        | (st3, some e) => (st3, some e, 0)
        | (st3, none) =>
            let st4 := cleanupTempDir env st3
            match chatSend env st4 ("Sent " ++ toString st4.count ++ " calls to the channel") with
            | (st5, some e) => (st5, some e, 0)
            | (st5, none) => (st5, none, st5.count)

/-! ## Derived definitions for the verification statements -/

/-- Lower bound of the requested fetch window: the stored timestamp, or
the 24-hour default `get_last_check_time` synthesizes and persists. -/
def readLastCheck (fsCheck : Option Int) (now : Int) : Int :=
  fsCheck.getD (now - 86400)

/-- State with which process_new_calls enters its per-call loop
(handlers.py 36-67): checkpoint files read (writing the 24-hour default
when the timestamp file is absent), scratch flag set from the archive
resolution, resume flag primed from the stored uuid. -/
def loopStartSt (env : Env) (now : Int) (fsCheck : Option Int) (fsUuid : Option String) : St :=
  { { (get_last_check_time (initSt fsCheck fsUuid) now).2 with
      scratch := archiveScratch env } with
    foundLast := get_last_call_uuid (initSt fsCheck fsUuid) == "" }

/-- Completion of a process_new_calls invocation after its per-call loop
(handlers.py 180-189): on normal loop exit the scratch directory is
cleaned up and the count returned; an escaping exception skips both. -/
def finishRun (env : Env) : St × Option PyExn → St × Option PyExn × Nat
  | (st1, some e) => (st1, some e, 0)
  | (st1, none) => (cleanupTempDir env st1, none, (cleanupTempDir env st1).count)

/-- Checkpoint-file contents threaded across a sequence of
`process_new_calls` invocations, collecting every timestamp write of
every invocation in order. -/
def runSeq (fsCheck : Option Int) (fsUuid : Option String) :
    List (Env × Int) → (Option Int × Option String) × List Int
  | [] => ((fsCheck, fsUuid), [])
  | (env, now) :: rest =>
      let res := process_new_calls env now fsCheck fsUuid
      let next := runSeq res.1.fsCheck res.1.fsUuid rest
      (next.1, res.1.checkWrites ++ next.2)

/-- Frame conditions of a sequence of invocations: at each invocation the
clock is not behind the stored checkpoint (a non-decreasing wall clock
guarantees this, since every write of an invocation is bounded by its
clock), and every fetched record's `start_stamp` lies within the
requested window `[readLastCheck, now]`. -/
def seqOK (fsCheck : Option Int) (fsUuid : Option String) : List (Env × Int) → Prop
  | [] => True
  | (env, now) :: rest =>
      (∀ t, fsCheck = some t → t ≤ now) ∧
      (∀ l, env.callDetails = some l →
        ∀ r ∈ l, readLastCheck fsCheck now ≤ r.start_stamp ∧ r.start_stamp ≤ now) ∧
      seqOK (process_new_calls env now fsCheck fsUuid).1.fsCheck
        (process_new_calls env now fsCheck fsUuid).1.fsUuid rest

/-- Fixed local-time renderer used for concrete runs. -/
def fmtW : Int → String := fun _ => "2025-01-01 00:00:00"

/-- Concrete call record for concrete runs. -/
def mkRecord (uuid : String) (stamp : Int) (caller : String) : CallRecord :=
  { uuid := uuid
    start_stamp := stamp
    caller_id_number := caller
    destination_number := "998901234567"
    accountcode := "inbound"
    duration := 75
    user_talk_time := 30
    hangup_cause := "NORMAL_CLEARING"
    gateway := "gw_main"
    contacted := true }

/-- Concrete environment with no archive and a given outcome oracle. -/
def mkEnv (details : Option (List CallRecord)) (outcomes : Nat → SendOutcome) : Env :=
  { authOk := true
    callDetails := details
    downloadUrl := false
    archive := none
    isFile := fun _ => false
    fileExists := fun _ => false
    fileSize := fun _ => 0
    outcomes := outcomes
    rmtreeOk := true
    fmtTime := fmtW }

/-- Environment whose single record is handled on the API-error fallback
path: the first text send fails with a non-rate-limit error, the fallback
succeeds. -/
def envC1cex : Env :=
  mkEnv (some [mkRecord "u1" 50 "100"]) (fun n => if n == 0 then .apiExn "boom" else .ok)

/-- Environment with an empty fetch result. -/
def envEmptyFetch : Env :=
  mkEnv (some []) (fun _ => .ok)

/-- Record whose caller field carries HTML markup. -/
def rC6 : CallRecord := mkRecord "u6" 40 "<b>injected</b>"

/-- Rate-limit error text as the Telegram API produces it. -/
def rlMsg : String := "Too Many Requests: retry after 5"

/-- Environment whose single record hits a rate limit on the first text
send; the retry succeeds. -/
def envC3cex : Env :=
  mkEnv (some [mkRecord "u3" 70 "200"]) (fun n => if n == 0 then .apiExn rlMsg else .ok)

/-- Record and archive for the scratch-leak run. -/
def envC7cex : Env :=
  { mkEnv (some [mkRecord "u7" 60 "300"])
      (fun _ => .apiExn "Too Many Requests: Retry After 5") with
    downloadUrl := true
    archive := some [("f.mp3", "/tmp/extract/f.mp3")] }

/-- Records for the resume-point witness. -/
def rM : CallRecord := mkRecord "m1" 20 "111"

/-- Record after the resume point. -/
def rP : CallRecord := mkRecord "p1" 30 "222"

/-- Environment for the resume-point witness. -/
def envC2wit : Env := mkEnv (some [rM, rP]) (fun _ => .ok)

/-- Environment for the unmatched-resume witness. -/
def envC9wit : Env := mkEnv (some [mkRecord "zz" 30 "333"]) (fun _ => .ok)

/-! ## Theorems -/

/-- The audio attempt never touches the checkpoint state, the counter, the
scratch flag or the resume flag. -/
theorem attemptAudio_frame (env : Env) (st : St) (call : CallRecord) (message : String) :
    (attemptAudio env st call message).2.fsCheck = st.fsCheck ∧
    (attemptAudio env st call message).2.fsUuid = st.fsUuid ∧
    (attemptAudio env st call message).2.checkWrites = st.checkWrites ∧
    (attemptAudio env st call message).2.uuidWrites = st.uuidWrites ∧
    (attemptAudio env st call message).2.count = st.count ∧
    (attemptAudio env st call message).2.scratch = st.scratch ∧
    (attemptAudio env st call message).2.foundLast = st.foundLast ∧
    (attemptAudio env st call message).2.sleeps = st.sleeps := by
  unfold attemptAudio
  split
  · split
    · split <;> simp
    · simp
  · simp

/-- Case analysis of the text-only send with its exception handlers:
plain success persists both checkpoint values; a successful rate-limit
retry or fallback persists only the uuid; a double failure or an escaping
exception persists nothing. -/
theorem sendTextHandlers_cases (env : Env) (st1 : St) (call : CallRecord) (m : String) :
    ((sendTextHandlers env st1 call m).1.checkWrites = st1.checkWrites ++ [call.start_stamp] ∧
     (sendTextHandlers env st1 call m).1.fsCheck = some call.start_stamp ∧
     (sendTextHandlers env st1 call m).1.uuidWrites = st1.uuidWrites ++ [call.uuid] ∧
     (sendTextHandlers env st1 call m).1.fsUuid = some call.uuid ∧
     (sendTextHandlers env st1 call m).1.count = st1.count + 1 ∧
     (sendTextHandlers env st1 call m).1.scratch = st1.scratch ∧
     (sendTextHandlers env st1 call m).1.foundLast = st1.foundLast) ∨
    ((sendTextHandlers env st1 call m).1.checkWrites = st1.checkWrites ∧
     (sendTextHandlers env st1 call m).1.fsCheck = st1.fsCheck ∧
     (sendTextHandlers env st1 call m).1.uuidWrites = st1.uuidWrites ++ [call.uuid] ∧
     (sendTextHandlers env st1 call m).1.fsUuid = some call.uuid ∧
     (sendTextHandlers env st1 call m).1.count = st1.count + 1 ∧
     (sendTextHandlers env st1 call m).1.scratch = st1.scratch ∧
     (sendTextHandlers env st1 call m).1.foundLast = st1.foundLast) ∨
    ((sendTextHandlers env st1 call m).1.checkWrites = st1.checkWrites ∧
     (sendTextHandlers env st1 call m).1.fsCheck = st1.fsCheck ∧
     (sendTextHandlers env st1 call m).1.uuidWrites = st1.uuidWrites ∧
     (sendTextHandlers env st1 call m).1.fsUuid = st1.fsUuid ∧
     (sendTextHandlers env st1 call m).1.count = st1.count ∧
     (sendTextHandlers env st1 call m).1.scratch = st1.scratch ∧
     (sendTextHandlers env st1 call m).1.foundLast = st1.foundLast) := by
  unfold sendTextHandlers
  dsimp only
  split
  · simp [recordSuccess, save_last_check_time, save_last_call_uuid]
  · split
    · split
      · simp
      · split
        · simp
        · split <;> simp [save_last_call_uuid]
    · split <;> simp [save_last_call_uuid]
  · split <;> simp [save_last_call_uuid]

/-- Case analysis of one processed record: either the plain success path
ran (both checkpoint values persisted, counter incremented), or a degraded
fallback succeeded (only the uuid persisted, counter incremented), or
nothing was delivered (no checkpoint write, counter unchanged). -/
theorem processCall_cases (env : Env) (st : St) (call : CallRecord) :
    ((processCall env st call).1.checkWrites = st.checkWrites ++ [call.start_stamp] ∧
     (processCall env st call).1.fsCheck = some call.start_stamp ∧
     (processCall env st call).1.uuidWrites = st.uuidWrites ++ [call.uuid] ∧
     (processCall env st call).1.fsUuid = some call.uuid ∧
     (processCall env st call).1.count = st.count + 1 ∧
     (processCall env st call).1.scratch = st.scratch ∧
     (processCall env st call).1.foundLast = st.foundLast) ∨
    ((processCall env st call).1.checkWrites = st.checkWrites ∧
     (processCall env st call).1.fsCheck = st.fsCheck ∧
     (processCall env st call).1.uuidWrites = st.uuidWrites ++ [call.uuid] ∧
     (processCall env st call).1.fsUuid = some call.uuid ∧
     (processCall env st call).1.count = st.count + 1 ∧
     (processCall env st call).1.scratch = st.scratch ∧
     (processCall env st call).1.foundLast = st.foundLast) ∨
    ((processCall env st call).1.checkWrites = st.checkWrites ∧
     (processCall env st call).1.fsCheck = st.fsCheck ∧
     (processCall env st call).1.uuidWrites = st.uuidWrites ∧
     (processCall env st call).1.fsUuid = st.fsUuid ∧
     (processCall env st call).1.count = st.count ∧
     (processCall env st call).1.scratch = st.scratch ∧
     (processCall env st call).1.foundLast = st.foundLast) := by
  have hA := attemptAudio_frame env st call (format_call_details env.fmtTime call)
  unfold processCall
  dsimp only
  rcases hEq : attemptAudio env st call (format_call_details env.fmtTime call) with ⟨b, st1⟩
  rw [hEq] at hA
  obtain ⟨h1, h2, h3, h4, h5, h6, h7, h8⟩ := hA
  cases b
  · rcases sendTextHandlers_cases env st1 call (format_call_details env.fmtTime call) with
      h | h | h
    · exact Or.inl (by simp_all)
    · exact Or.inr (Or.inl (by simp_all))
    · exact Or.inr (Or.inr (by simp_all))
  · exact Or.inl (by
      simp_all [recordSuccess, save_last_check_time, save_last_call_uuid])

/-- While the resume flag is down and no record matches the stored uuid,
the loop skips everything and changes nothing. -/
theorem processLoop_skip (env : Env) (u : String) (st : St) (l : List CallRecord)
    (hf : st.foundLast = false) (hmiss : ∀ r ∈ l, r.uuid ≠ u) :
    processLoop env u st l = (st, none) := by
  induction l with
  | nil => simp [processLoop]
  | cons r rest ih =>
    have hru : (r.uuid == u) = false := by
      simp only [beq_eq_false_iff_ne, ne_eq]
      exact hmiss r (by simp)
    simp only [processLoop, hf, if_false, Bool.false_eq_true, hru]
    exact ih (fun x hx => hmiss x (by simp [hx]))

/-- Resume-point equality: with the flag down, the records before and
including the first match are skipped, and the loop continues on the
records after the match with the flag up. -/
theorem processLoop_resume (env : Env) (u : String) (st : St)
    (pre : List CallRecord) (m : CallRecord) (post : List CallRecord)
    (hf : st.foundLast = false) (hm : m.uuid = u) (hpre : ∀ r ∈ pre, r.uuid ≠ u) :
    processLoop env u st (pre ++ m :: post) =
      processLoop env u { st with foundLast := true } post := by
  induction pre with
  | nil =>
    have hmu : (m.uuid == u) = true := by simp [hm]
    simp only [List.nil_append, processLoop, hf, Bool.false_eq_true, if_false, hmu, if_true]
  | cons r rest ih =>
    have hru : (r.uuid == u) = false := by
      simp only [beq_eq_false_iff_ne, ne_eq]
      exact hpre r (by simp)
    simp only [List.cons_append, processLoop, hf, Bool.false_eq_true, if_false, hru]
    exact ih (fun x hx => hpre x (by simp [hx]))

/-- Timestamp writes of the processing loop: starting from a stored value
`c` bounding a sorted record list from below, the writes the loop appends
form a non-decreasing chain continuing `c`, and the stored value ends at
the last element of that chain — on the normal exit and on the
exceptional one alike. -/
theorem processLoop_mono (env : Env) (u : String) (l : List CallRecord) :
    ∀ (st : St) (c : Int), st.fsCheck = some c →
    List.Pairwise stampLE l →
    (∀ r ∈ l, c ≤ r.start_stamp) →
    ∃ W, (processLoop env u st l).1.checkWrites = st.checkWrites ++ W ∧
      List.Chain' (· ≤ ·) (c :: W) ∧
      (processLoop env u st l).1.fsCheck = (c :: W).getLast? := by
  induction l with
  | nil =>
    intro st c hc _ _
    exact ⟨[], by simp [processLoop, hc]⟩
  | cons r rest ih =>
    intro st c hc hsort hlo
    obtain ⟨hhead, htail⟩ := List.pairwise_cons.mp hsort
    by_cases hfl : st.foundLast
    · rcases hPC : processCall env st r with ⟨st1, e⟩
      have hcase := processCall_cases env st r
      rw [hPC] at hcase
      dsimp only at hcase
      rcases e with _ | e
      · -- no exception: the loop continues on st1
        have hres : processLoop env u st (r :: rest) = processLoop env u st1 rest := by
          simp [processLoop, hfl, hPC]
        rcases hcase with ⟨hw, hf, -, -, -, -, hfl1⟩ | ⟨hw, hf, -, -, -, -, hfl1⟩ |
          ⟨hw, hf, -, -, -, -, hfl1⟩
        · -- success: timestamp written
          obtain ⟨W', e1, e2, e3⟩ := ih st1 r.start_stamp (by simp [hf]) htail
            (fun x hx => hhead x hx)
          refine ⟨r.start_stamp :: W', ?_, ?_, ?_⟩
          · rw [hres, e1, hw]; simp
          · exact List.chain'_cons.mpr ⟨hlo r (by simp), e2⟩
          · rw [hres, e3, List.getLast?_cons_cons]
        · -- degraded: no timestamp write
          obtain ⟨W', e1, e2, e3⟩ := ih st1 c (by rw [hf, hc]) htail
            (fun x hx => hlo x (by simp [hx]))
          exact ⟨W', by rw [hres, e1, hw], e2, by rw [hres, e3]⟩
        · -- nothing delivered
          obtain ⟨W', e1, e2, e3⟩ := ih st1 c (by rw [hf, hc]) htail
            (fun x hx => hlo x (by simp [hx]))
          exact ⟨W', by rw [hres, e1, hw], e2, by rw [hres, e3]⟩
      · -- exception: the loop stops at st1
        have hres : processLoop env u st (r :: rest) = (st1, some e) := by
          simp [processLoop, hfl, hPC]
        rcases hcase with ⟨hw, hf, -⟩ | ⟨hw, hf, -⟩ | ⟨hw, hf, -⟩
        · exact ⟨[r.start_stamp], by simp [hres, hw],
            List.chain'_cons.mpr ⟨hlo r (by simp), List.chain'_singleton _⟩,
            by simp [hres, hf]⟩
        · exact ⟨[], by simp [hres, hw], List.chain'_singleton _, by simp [hres, hf, hc]⟩
        · exact ⟨[], by simp [hres, hw], List.chain'_singleton _, by simp [hres, hf, hc]⟩
    · -- resume flag down: the record is skipped
      by_cases hru : r.uuid == u
      · have hres : processLoop env u st (r :: rest) =
            processLoop env u { st with foundLast := true } rest := by
          simp [processLoop, hfl, hru]
        obtain ⟨W', e1, e2, e3⟩ := ih { st with foundLast := true } c (by simp [hc]) htail
          (fun x hx => hlo x (by simp [hx]))
        exact ⟨W', by rw [hres, e1], e2, by rw [hres, e3]⟩
      · have hres : processLoop env u st (r :: rest) = processLoop env u st rest := by
          simp [processLoop, hfl, hru]
        obtain ⟨W', e1, e2, e3⟩ := ih st c hc htail (fun x hx => hlo x (by simp [hx]))
        exact ⟨W', by rw [hres, e1], e2, by rw [hres, e3]⟩

/-- Cleanup only touches the scratch flag. -/
theorem cleanupTempDir_frame (env : Env) (st : St) :
    (cleanupTempDir env st).fsCheck = st.fsCheck ∧
    (cleanupTempDir env st).fsUuid = st.fsUuid ∧
    (cleanupTempDir env st).checkWrites = st.checkWrites ∧
    (cleanupTempDir env st).uuidWrites = st.uuidWrites ∧
    (cleanupTempDir env st).sends = st.sends ∧
    (cleanupTempDir env st).count = st.count := by
  unfold cleanupTempDir
  split
  · split <;> simp
  · simp

/-- `get_last_check_time` does not touch the uuid file. -/
theorem get_last_call_uuid_after_read (st : St) (now : Int) :
    get_last_call_uuid (get_last_check_time st now).2 = get_last_call_uuid st := by
  unfold get_last_check_time
  split <;> rfl

/-- Unfolding of `process_new_calls` on the records-present branch. -/
theorem process_new_calls_unfold (env : Env) (now : Int) (fsCheck : Option Int)
    (fsUuid : Option String) (l : List CallRecord)
    (hauth : env.authOk = true) (hcd : env.callDetails = some l) (hne : l ≠ []) :
    process_new_calls env now fsCheck fsUuid =
      finishRun env (processLoop env (get_last_call_uuid (initSt fsCheck fsUuid))
        (loopStartSt env now fsCheck fsUuid) (sortRecords l)) := by
  have hdet : detailsFalsy (some l) = false := by
    simp [detailsFalsy, hne]
  have hlu : get_last_call_uuid (get_last_check_time (initSt fsCheck fsUuid) now).2 =
      get_last_call_uuid (initSt fsCheck fsUuid) :=
    get_last_call_uuid_after_read (initSt fsCheck fsUuid) now
  simp [process_new_calls, hauth, hdet, hcd, finishRun, loopStartSt, hlu]

/-- One invocation of process_new_calls, under the frame conditions of
`seqOK`: the timestamp writes continue the stored value as a
non-decreasing chain, and the stored value ends unchanged (no writes) or
at the last write. -/
theorem process_new_calls_mono (env : Env) (now : Int)
    (fsCheck : Option Int) (fsUuid : Option String)
    (hnow : ∀ t, fsCheck = some t → t ≤ now)
    (hwin : ∀ l, env.callDetails = some l →
      ∀ r ∈ l, readLastCheck fsCheck now ≤ r.start_stamp ∧ r.start_stamp ≤ now) :
    ∃ W, (process_new_calls env now fsCheck fsUuid).1.checkWrites = W ∧
      List.Chain' (· ≤ ·) (fsCheck.toList ++ W) ∧
      (W = [] → (process_new_calls env now fsCheck fsUuid).1.fsCheck = fsCheck) ∧
      (W ≠ [] → (process_new_calls env now fsCheck fsUuid).1.fsCheck = W.getLast?) := by
  by_cases hauth : env.authOk
  · by_cases hdet : detailsFalsy env.callDetails
    · -- empty window: a single write of `now`
      rcases fsCheck with _ | t0
      · refine ⟨[now - 86400, now], ?_⟩
        simp [process_new_calls, hauth, hdet, initSt, get_last_check_time,
          save_last_check_time, List.chain'_cons]
        try omega
      · refine ⟨[now], ?_⟩
        simp [process_new_calls, hauth, hdet, initSt, get_last_check_time,
          save_last_check_time, List.chain'_cons]
        try exact hnow t0 rfl
    · -- records present: the loop runs
      rcases hcd : env.callDetails with _ | l
      · simp [detailsFalsy, hcd] at hdet
      · have hne : l ≠ [] := by
          intro h
          rw [h] at hcd
          simp [detailsFalsy, hcd] at hdet
        have hsorted : List.Pairwise stampLE (sortRecords l) :=
          List.sorted_insertionSort stampLE l
        have hmem : ∀ r ∈ sortRecords l, readLastCheck fsCheck now ≤ r.start_stamp := by
          intro r hr
          exact (hwin l hcd r ((List.mem_insertionSort stampLE).mp hr)).1
        rw [process_new_calls_unfold env now fsCheck fsUuid l hauth hcd hne]
        have hB : (loopStartSt env now fsCheck fsUuid).fsCheck =
              some (readLastCheck fsCheck now) ∧
            (loopStartSt env now fsCheck fsUuid).checkWrites =
              (if fsCheck = none then [now - 86400] else []) := by
          rcases fsCheck with _ | t0 <;>
            simp [loopStartSt, get_last_check_time, initSt, save_last_check_time,
              readLastCheck]
        obtain ⟨W', e1, e2, e3⟩ := processLoop_mono env
          (get_last_call_uuid (initSt fsCheck fsUuid)) (sortRecords l)
          (loopStartSt env now fsCheck fsUuid) (readLastCheck fsCheck now)
          hB.1 hsorted hmem
        rcases hLoop : processLoop env (get_last_call_uuid (initSt fsCheck fsUuid))
            (loopStartSt env now fsCheck fsUuid) (sortRecords l) with ⟨st1, e⟩
        rw [hLoop] at e1 e3
        dsimp only at e1 e3
        have hfin1 : (finishRun env (st1, e)).1.checkWrites = st1.checkWrites := by
          rcases e with _ | e
          · exact (cleanupTempDir_frame env st1).2.2.1
          · rfl
        have hfin2 : (finishRun env (st1, e)).1.fsCheck = st1.fsCheck := by
          rcases e with _ | e
          · exact (cleanupTempDir_frame env st1).1
          · rfl
        rcases fsCheck with _ | t0
        · -- absent file: the 24-hour default write opens the chain
          simp only [if_pos rfl] at hB
          refine ⟨(now - 86400) :: W', ?_, ?_, ?_, ?_⟩
          · rw [hfin1, e1, hB.2]
            rfl
          · simpa [readLastCheck] using e2
          · intro h; simp at h
          · intro _
            rw [hfin2, e3]
            simp [readLastCheck]
        · -- stored file: the chain continues from `t0`
          have ht0 : readLastCheck (some t0) now = t0 := rfl
          simp only [ht0] at e2 e3 hB
          have hBW : (loopStartSt env now (some t0) fsUuid).checkWrites = [] := by
            simpa using hB.2
          refine ⟨W', ?_, ?_, ?_, ?_⟩
          · rw [hfin1, e1, hBW]
            rfl
          · simpa using e2
          · intro h
            subst h
            rw [hfin2, e3]
            rfl
          · intro h
            rcases W' with _ | ⟨w, ws⟩
            · exact absurd rfl h
            · rw [hfin2, e3, List.getLast?_cons_cons]
  · refine ⟨[], ?_⟩
    rcases fsCheck with _ | t0 <;>
      simp [process_new_calls, hauth, initSt, List.chain'_singleton]

/-- Across a sequence of invocations satisfying the `seqOK` frame
conditions, all timestamp writes, prefixed by the initially stored value,
form one non-decreasing chain. -/
theorem runSeq_mono : ∀ (invs : List (Env × Int)) (fsCheck : Option Int)
    (fsUuid : Option String), seqOK fsCheck fsUuid invs →
    List.Chain' (· ≤ ·) (fsCheck.toList ++ (runSeq fsCheck fsUuid invs).2) := by
  intro invs
  induction invs with
  | nil =>
    intro fsCheck fsUuid _
    rcases fsCheck with _ | t <;> simp [runSeq, List.chain'_singleton]
  | cons inv rest ih =>
    intro fsCheck fsUuid hOK
    rcases inv with ⟨env, now⟩
    obtain ⟨hnow, hwin, hrest⟩ := hOK
    obtain ⟨W, hW, hchain, hnilCase, hconsCase⟩ :=
      process_new_calls_mono env now fsCheck fsUuid hnow hwin
    have hrs : (runSeq fsCheck fsUuid ((env, now) :: rest)).2 =
        (process_new_calls env now fsCheck fsUuid).1.checkWrites ++
          (runSeq (process_new_calls env now fsCheck fsUuid).1.fsCheck
            (process_new_calls env now fsCheck fsUuid).1.fsUuid rest).2 := rfl
    have ihr := ih (process_new_calls env now fsCheck fsUuid).1.fsCheck
      (process_new_calls env now fsCheck fsUuid).1.fsUuid hrest
    rw [hrs, hW]
    set fs1 := (process_new_calls env now fsCheck fsUuid).1.fsCheck with hfs1
    set Wrest := (runSeq fs1 (process_new_calls env now fsCheck fsUuid).1.fsUuid rest).2
      with hWrest
    by_cases hWnil : W = []
    · subst hWnil
      rw [hnilCase rfl] at ihr
      simpa using ihr
    · rcases hlast : W.getLast? with _ | wl
      · exact absurd (List.getLast?_eq_none_iff.mp hlast) hWnil
      · rw [hconsCase hWnil, hlast] at ihr
        have ihc : List.Chain' (· ≤ ·) (wl :: Wrest) := by simpa using ihr
        rw [← List.append_assoc, List.chain'_append]
        refine ⟨hchain, (List.chain'_cons'.mp ihc).2, ?_⟩
        intro x hx y hy
        have hxl : (fsCheck.toList ++ W).getLast? = some wl := by
          rw [List.getLast?_append, hlast]
          rfl
        rw [hxl] at hx
        obtain rfl : wl = x := by simpa using hx
        exact (List.chain'_cons'.mp ihc).1 y hy

/-- `listPre` holds of every `take`-prefix. -/
theorem listPre_take (xs : List Char) : ∀ k, listPre (xs.take k) xs = true := by
  induction xs with
  | nil => intro k; simp [listPre]
  | cons x xs ih =>
    intro k
    rcases k with _ | k
    · simp [listPre]
    · simp [listPre, ih k]

/-- Claim C5 (counterexample): the checkpoint writes are not atomic
old-or-new replacements: `open(path, 'w')` truncates before the payload is
written, so an interruption between the two leaves the empty file, which
is neither the old value `"100"` nor the new value `"200"`. -/
theorem C5_cex_truncated_state :
    "" ∈ saveValueWriteStates "100" "200" ∧ "" ≠ "100" ∧ "" ≠ "200" := by
  decide

/-- Claim C5 (amended): an interruption mid-write of `save_last_check_time`
or `save_last_call_uuid` leaves either the complete old value or some
prefix of the new value (the empty truncated state included) — not
necessarily the old or the new value. -/
theorem C5_write_states (old new s : String) (h : s ∈ saveValueWriteStates old new) :
    s = old ∨ listPre s.toList new.toList = true := by
  rcases List.mem_cons.mp h with h | h
  · exact Or.inl h
  · right
    obtain ⟨k, -, rfl⟩ := List.mem_map.mp h
    rw [List.toList_asString]
    exact listPre_take new.toList k

/-- Witness for C5_write_states at the truncated intermediate state. -/
theorem C5_write_states_witness :
    "" ∈ saveValueWriteStates "100" "200" ∧
    ("" = "100" ∨ listPre "".toList "200".toList = true) :=
  ⟨by decide, C5_write_states "100" "200" "" (by decide)⟩

/-- Claim C6 (code bug): format_call_details escapes only the Markdown
characters `_` and `*`, although the message is sent with
HTML parse mode; the HTML-significant characters `<`, `>`, `&` of the
caller field pass through verbatim, so a caller id of `<b>injected</b>`
lands unescaped inside the HTML message and alters its structure. -/
theorem C6_html_not_escaped :
    escapeField "<b>injected</b>" = "<b>injected</b>" ∧
    pyIn "<b>injected</b>" (format_call_details fmtW rC6) = true := by
  decide

/-- Claim C4: with authentication succeeding and the fetch returning no
records (or failing), process_new_calls persists `now` as the last-check
timestamp (it is the final timestamp write), leaves the uuid file
untouched, delivers no channel message, raises nothing and returns 0. -/
theorem C4_empty_window (env : Env) (now : Int) (fsCheck : Option Int) (fsUuid : Option String)
    (hauth : env.authOk = true) (hempty : detailsFalsy env.callDetails = true) :
    (process_new_calls env now fsCheck fsUuid).2.2 = 0 ∧
    (process_new_calls env now fsCheck fsUuid).2.1 = none ∧
    (process_new_calls env now fsCheck fsUuid).1.fsCheck = some now ∧
    (process_new_calls env now fsCheck fsUuid).1.checkWrites.getLast? = some now ∧
    (process_new_calls env now fsCheck fsUuid).1.fsUuid = fsUuid ∧
    (process_new_calls env now fsCheck fsUuid).1.uuidWrites = [] ∧
    (process_new_calls env now fsCheck fsUuid).1.sends = [] := by
  rcases fsCheck with _ | t0 <;>
    simp [process_new_calls, hauth, hempty, initSt, get_last_check_time,
      save_last_check_time]

/-- Witness for C4_empty_window on a concrete empty fetch. -/
theorem C4_empty_window_witness :
    envEmptyFetch.authOk = true ∧ detailsFalsy envEmptyFetch.callDetails = true ∧
    (process_new_calls envEmptyFetch 100 (some 10) (some "u0")).2.2 = 0 ∧
    (process_new_calls envEmptyFetch 100 (some 10) (some "u0")).1.fsCheck = some 100 :=
  ⟨rfl, by decide,
    (C4_empty_window envEmptyFetch 100 (some 10) (some "u0") rfl (by decide)).1,
    (C4_empty_window envEmptyFetch 100 (some 10) (some "u0") rfl (by decide)).2.2.1⟩

/-- Claim C1 (counterexample): a record handled on a degraded path. The
first text send raises a non-rate-limit API error and the fallback send
succeeds, so the record counts as processed and its uuid is persisted,
but the timestamp checkpoint is never written for it — refuting that
both checkpoint values are persisted on every degraded path. -/
theorem C1_cex_degraded_no_timestamp :
    (process_new_calls envC1cex 100 (some 10) none).2.2 = 1 ∧
    (process_new_calls envC1cex 100 (some 10) none).1.uuidWrites = ["u1"] ∧
    (process_new_calls envC1cex 100 (some 10) none).1.checkWrites = [] := by
  decide

/-- Claim C1 (amended): after each handled record the uuid checkpoint is
persisted before the next record is processed; the timestamp checkpoint
is additionally persisted exactly on the plain success path — a record
handled on a degraded path persists only the uuid, and an unhandled
record persists neither. -/
theorem C1_checkpoint_per_record (env : Env) (st : St) (call : CallRecord) :
    ((processCall env st call).1.count = st.count + 1 →
      (processCall env st call).1.uuidWrites = st.uuidWrites ++ [call.uuid] ∧
      (processCall env st call).1.fsUuid = some call.uuid) ∧
    ((processCall env st call).1.checkWrites ≠ st.checkWrites →
      (processCall env st call).1.checkWrites = st.checkWrites ++ [call.start_stamp] ∧
      (processCall env st call).1.fsCheck = some call.start_stamp ∧
      (processCall env st call).1.count = st.count + 1 ∧
      (processCall env st call).1.uuidWrites = st.uuidWrites ++ [call.uuid]) ∧
    ((processCall env st call).1.count = st.count →
      (processCall env st call).1.uuidWrites = st.uuidWrites ∧
      (processCall env st call).1.checkWrites = st.checkWrites) := by
  rcases processCall_cases env st call with h | h | h
  · obtain ⟨h1, h2, h3, h4, h5, -, -⟩ := h
    refine ⟨fun _ => ⟨h3, h4⟩, fun _ => ⟨h1, h2, h5, h3⟩, fun hc => ?_⟩
    rw [h5] at hc
    omega
  · obtain ⟨h1, h2, h3, h4, h5, -, -⟩ := h
    refine ⟨fun _ => ⟨h3, h4⟩, fun hne => absurd h1 hne, fun hc => ?_⟩
    rw [h5] at hc
    omega
  · obtain ⟨h1, h2, h3, h4, h5, -, -⟩ := h
    refine ⟨fun hc => ?_, fun hne => absurd h1 hne, fun _ => ⟨h3, h1⟩⟩
    rw [h5] at hc
    omega

/-- Witness for C1_checkpoint_per_record on the degraded fallback path. -/
theorem C1_checkpoint_per_record_witness :
    (processCall envC1cex (initSt (some 10) none) (mkRecord "u1" 50 "100")).1.count =
      (initSt (some 10) none).count + 1 ∧
    (processCall envC1cex (initSt (some 10) none) (mkRecord "u1" 50 "100")).1.uuidWrites =
      (initSt (some 10) none).uuidWrites ++ [(mkRecord "u1" 50 "100").uuid] :=
  ⟨by decide,
    ((C1_checkpoint_per_record envC1cex (initSt (some 10) none)
      (mkRecord "u1" 50 "100")).1 (by decide)).1⟩

/-- Claim C3 (counterexample): a rate-limited send with `retry after 5`
waits 6 seconds and the text-only retry succeeds, so the call counts as
processed and its uuid is persisted — but the timestamp checkpoint is
never written for it, refuting that the checkpoint pair (start_time and
id) is persisted on this path. -/
theorem C3_cex_retry_no_timestamp :
    (process_new_calls envC3cex 100 (some 10) none).2.2 = 1 ∧
    (process_new_calls envC3cex 100 (some 10) none).1.sleeps = [6] ∧
    (process_new_calls envC3cex 100 (some 10) none).1.uuidWrites = ["u3"] ∧
    (process_new_calls envC3cex 100 (some 10) none).1.checkWrites = [] := by
  decide

/-- Claim C3 (amended): when the text send of a record without matching
audio raises a rate-limit error whose retry-after value parses to `rt`,
process_new_calls sleeps `rt + 1` seconds, retries exactly once with the
text-only variant (exactly two send attempts are consumed, no audio is
re-sent), and on a successful retry counts the call as processed and
persists only the record id — the last-check timestamp is not written. -/
theorem C3_rate_limit_retry (env : Env) (st : St) (call : CallRecord)
    (emsg : String) (rt : Int)
    (hAudio : audioPathFor env st.scratch call.uuid = none)
    (h0 : env.outcomes st.attempts = .apiExn emsg)
    (hRetry : pyIn "retry after" (pyLower emsg) = true)
    (hParse : parseRetryAfter emsg = some rt)
    (hPos : ¬rt + 1 < 0)
    (h1 : env.outcomes (st.attempts + 1) = .ok) :
    processCall env st call =
      ({ st with
         attempts := st.attempts + 2,
         sleeps := st.sleeps ++ [rt + 1],
         sends := st.sends ++
           [.text (format_call_details env.fmtTime call ++ suffixRateLimited)],
         count := st.count + 1,
         uuidWrites := st.uuidWrites ++ [call.uuid],
         fsUuid := some call.uuid }, none) := by
  have hatt : attemptAudio env st call (format_call_details env.fmtTime call) = (false, st) := by
    unfold attemptAudio
    rw [hAudio]
  unfold processCall
  dsimp only
  rw [hatt]
  dsimp only
  unfold sendTextHandlers
  rw [h0]
  dsimp only
  rw [hRetry, hParse]
  dsimp only
  rw [if_neg hPos]
  try dsimp only
  rw [h1]
  simp [save_last_call_uuid]

/-- Witness for C3_rate_limit_retry on a concrete rate-limited run. -/
theorem C3_rate_limit_retry_witness :
    parseRetryAfter rlMsg = some 5 ∧
    (processCall envC3cex (initSt (some 10) none) (mkRecord "u3" 70 "200")).1.sleeps =
      [(6 : Int)] ∧
    (processCall envC3cex (initSt (some 10) none) (mkRecord "u3" 70 "200")).1.uuidWrites =
      ["u3"] ∧
    (processCall envC3cex (initSt (some 10) none) (mkRecord "u3" 70 "200")).1.checkWrites =
      [] := by
  have h := C3_rate_limit_retry envC3cex (initSt (some 10) none) (mkRecord "u3" 70 "200")
    rlMsg 5 (by rfl) (by rfl) (by decide) (by decide) (by decide) (by rfl)
  refine ⟨by decide, ?_, ?_, ?_⟩ <;> (rw [h]; rfl)

/-- Claim C7 (counterexample): an invocation that created archive scratch
storage exits with an uncaught exception — the rate-limit parse
`int(str(e).split("retry after ")[1])` fails on a message whose casing
passes the lowercase containment test but not the case-sensitive split —
and the temporary directory is still on disk when it returns. -/
theorem C7_cex_scratch_leak :
    archiveScratch envC7cex = true ∧
    (process_new_calls envC7cex 100 (some 10) none).2.1 =
      some (.retryParse "Too Many Requests: Retry After 5") ∧
    (process_new_calls envC7cex 100 (some 10) none).1.scratch = true := by
  decide

/-- Claim C7 (amended): on every invocation from which no exception
escapes, provided the directory removal itself succeeds, no archive
scratch storage remains when process_new_calls returns; an uncaught
exception from the malformed rate-limit parse skips the cleanup. -/
theorem C7_scratch_cleanup (env : Env) (now : Int) (fsCheck : Option Int)
    (fsUuid : Option String) (hrm : env.rmtreeOk = true)
    (hex : (process_new_calls env now fsCheck fsUuid).2.1 = none) :
    (process_new_calls env now fsCheck fsUuid).1.scratch = false := by
  by_cases hauth : env.authOk
  · by_cases hdet : detailsFalsy env.callDetails
    · rcases fsCheck with _ | t0 <;>
        simp [process_new_calls, hauth, hdet, initSt, get_last_check_time,
          save_last_check_time]
    · rcases hcd : env.callDetails with _ | l
      · simp [detailsFalsy, hcd] at hdet
      · have hne : l ≠ [] := by
          intro h
          rw [h] at hcd
          simp [detailsFalsy, hcd] at hdet
        rw [process_new_calls_unfold env now fsCheck fsUuid l hauth hcd hne] at hex ⊢
        rcases hLoop : processLoop env (get_last_call_uuid (initSt fsCheck fsUuid))
            (loopStartSt env now fsCheck fsUuid) (sortRecords l) with ⟨st1, e⟩
        rcases e with _ | e
        · show (cleanupTempDir env st1).scratch = false
          by_cases hs : st1.scratch <;>
            simp [cleanupTempDir, hrm, hs]
        · rw [hLoop] at hex
          exact absurd hex (by simp [finishRun])
  · simp [process_new_calls, hauth, initSt]

/-- Witness for C7_scratch_cleanup on a concrete clean run. -/
theorem C7_scratch_cleanup_witness :
    envEmptyFetch.rmtreeOk = true ∧
    (process_new_calls envEmptyFetch 100 (some 10) none).2.1 = none ∧
    (process_new_calls envEmptyFetch 100 (some 10) none).1.scratch = false :=
  ⟨rfl, by decide, C7_scratch_cleanup envEmptyFetch 100 (some 10) none rfl (by decide)⟩

/-- Setting an already-true resume flag changes nothing. -/
theorem St_with_foundLast_self (st : St) (h : st.foundLast = true) :
    { st with foundLast := true } = st := by
  cases st
  simp_all

/-- Claim C2: with a non-empty stored uuid, process_new_calls skips every
sorted record up to and including the first whose uuid matches — none of
them is sent or counted — and behaves exactly as the loop started on the
records after the match with the resume flag up; with an empty stored
uuid it runs the loop on all sorted records with the flag already up. -/
theorem C2_resume_point (env : Env) (now : Int) (fsCheck : Option Int)
    (fsUuid : Option String) (l : List CallRecord)
    (hauth : env.authOk = true) (hcd : env.callDetails = some l) (hne : l ≠ []) :
    (∀ pre m post, get_last_call_uuid (initSt fsCheck fsUuid) ≠ "" →
      sortRecords l = pre ++ m :: post →
      m.uuid = get_last_call_uuid (initSt fsCheck fsUuid) →
      (∀ r ∈ pre, r.uuid ≠ get_last_call_uuid (initSt fsCheck fsUuid)) →
      process_new_calls env now fsCheck fsUuid =
        finishRun env (processLoop env (get_last_call_uuid (initSt fsCheck fsUuid))
          { loopStartSt env now fsCheck fsUuid with foundLast := true } post)) ∧
    (get_last_call_uuid (initSt fsCheck fsUuid) = "" →
      process_new_calls env now fsCheck fsUuid =
        finishRun env (processLoop env (get_last_call_uuid (initSt fsCheck fsUuid))
          { loopStartSt env now fsCheck fsUuid with foundLast := true } (sortRecords l))) := by
  constructor
  · intro pre m post hu hsplit hm hpre
    rw [process_new_calls_unfold env now fsCheck fsUuid l hauth hcd hne, hsplit]
    congr 1
    exact processLoop_resume env _ (loopStartSt env now fsCheck fsUuid) pre m post
      (by simp [loopStartSt, hu]) hm hpre
  · intro hu
    rw [process_new_calls_unfold env now fsCheck fsUuid l hauth hcd hne]
    congr 2
    exact (St_with_foundLast_self (loopStartSt env now fsCheck fsUuid)
      (by simp [loopStartSt, hu])).symm

/-- Witness for C2_resume_point: the stored uuid matches the first sorted
record, so the run equals the loop on the remaining record alone. -/
theorem C2_resume_point_witness :
    get_last_call_uuid (initSt (some 10) (some "m1")) ≠ "" ∧
    sortRecords [rM, rP] = [] ++ rM :: [rP] ∧
    process_new_calls envC2wit 100 (some 10) (some "m1") =
      finishRun envC2wit (processLoop envC2wit
        (get_last_call_uuid (initSt (some 10) (some "m1")))
        { loopStartSt envC2wit 100 (some 10) (some "m1") with foundLast := true } [rP]) :=
  ⟨by decide, by decide,
    (C2_resume_point envC2wit 100 (some 10) (some "m1") [rM, rP] rfl rfl (by decide)).1
      [] rM [rP] (by decide) (by decide) (by decide) (by simp)⟩

/-- Claim C9: with a stored timestamp present, a non-empty stored uuid that
matches no fetched record makes process_new_calls skip every record: no
message is sent, neither checkpoint file is written (the timestamp is not
advanced to `now`), nothing escapes, and 0 is returned. -/
theorem C9_unmatched_resume (env : Env) (now t : Int) (fsUuid : Option String)
    (l : List CallRecord)
    (hauth : env.authOk = true) (hcd : env.callDetails = some l) (hne : l ≠ [])
    (hu : get_last_call_uuid (initSt (some t) fsUuid) ≠ "")
    (hmiss : ∀ r ∈ l, r.uuid ≠ get_last_call_uuid (initSt (some t) fsUuid)) :
    (process_new_calls env now (some t) fsUuid).2.2 = 0 ∧
    (process_new_calls env now (some t) fsUuid).2.1 = none ∧
    (process_new_calls env now (some t) fsUuid).1.sends = [] ∧
    (process_new_calls env now (some t) fsUuid).1.checkWrites = [] ∧
    (process_new_calls env now (some t) fsUuid).1.uuidWrites = [] ∧
    (process_new_calls env now (some t) fsUuid).1.fsCheck = some t ∧
    (process_new_calls env now (some t) fsUuid).1.fsUuid = fsUuid := by
  rw [process_new_calls_unfold env now (some t) fsUuid l hauth hcd hne]
  rw [processLoop_skip env _ (loopStartSt env now (some t) fsUuid) (sortRecords l)
    (by simp [loopStartSt, hu])
    (fun r hr => hmiss r ((List.mem_insertionSort stampLE).mp hr))]
  have hfr := cleanupTempDir_frame env (loopStartSt env now (some t) fsUuid)
  have hB : (loopStartSt env now (some t) fsUuid).count = 0 ∧
      (loopStartSt env now (some t) fsUuid).sends = [] ∧
      (loopStartSt env now (some t) fsUuid).checkWrites = [] ∧
      (loopStartSt env now (some t) fsUuid).uuidWrites = [] ∧
      (loopStartSt env now (some t) fsUuid).fsCheck = some t ∧
      (loopStartSt env now (some t) fsUuid).fsUuid = fsUuid := by
    simp [loopStartSt, get_last_check_time, initSt]
  exact ⟨hfr.2.2.2.2.2.trans hB.1, rfl,
    hfr.2.2.2.2.1.trans hB.2.1,
    hfr.2.2.1.trans hB.2.2.1,
    hfr.2.2.2.1.trans hB.2.2.2.1,
    hfr.1.trans hB.2.2.2.2.1,
    hfr.2.1.trans hB.2.2.2.2.2⟩

/-- Witness for C9_unmatched_resume with stored uuid `"aa"` matching no
record. -/
theorem C9_unmatched_resume_witness :
    get_last_call_uuid (initSt (some 10) (some "aa")) ≠ "" ∧
    (process_new_calls envC9wit 100 (some 10) (some "aa")).2.2 = 0 ∧
    (process_new_calls envC9wit 100 (some 10) (some "aa")).1.checkWrites = [] ∧
    (process_new_calls envC9wit 100 (some 10) (some "aa")).1.fsCheck = some 10 :=
  ⟨by decide,
    (C9_unmatched_resume envC9wit 100 10 (some "aa") [mkRecord "zz" 30 "333"]
      rfl rfl (by decide) (by decide) (by decide)).1,
    (C9_unmatched_resume envC9wit 100 10 (some "aa") [mkRecord "zz" 30 "333"]
      rfl rfl (by decide) (by decide) (by decide)).2.2.2.1,
    (C9_unmatched_resume envC9wit 100 10 (some "aa") [mkRecord "zz" 30 "333"]
      rfl rfl (by decide) (by decide) (by decide)).2.2.2.2.2.1⟩

/-- Claim C8: across any sequence of process_new_calls invocations whose
records lie within the requested fetch windows and whose clock is never
behind the stored checkpoint, the persisted last-check timestamp is
monotonically non-decreasing: the initially stored value followed by
every timestamp write, in order, forms a non-decreasing chain. -/
theorem C8_monotonic_checkpoint (fsCheck : Option Int) (fsUuid : Option String)
    (invs : List (Env × Int)) (h : seqOK fsCheck fsUuid invs) :
    List.Chain' (· ≤ ·) (fsCheck.toList ++ (runSeq fsCheck fsUuid invs).2) :=
  runSeq_mono invs fsCheck fsUuid h

/-- Witness for C8_monotonic_checkpoint over one empty-window invocation. -/
theorem C8_monotonic_checkpoint_witness :
    seqOK (some 50) none [(envEmptyFetch, 100)] ∧
    List.Chain' (· ≤ ·)
      ((some (50 : Int)).toList ++ (runSeq (some 50) none [(envEmptyFetch, 100)]).2) := by
  have hwit : seqOK (some 50) none [(envEmptyFetch, 100)] := by
    refine ⟨fun t ht => ?_, fun l hl => ?_, trivial⟩
    · injection ht with h
      omega
    · have hl2 : l = [] := by
        have : envEmptyFetch.callDetails = some [] := rfl
        rw [this] at hl
        exact (Option.some.injEq _ _ ▸ hl).symm
      subst hl2
      simp
  exact ⟨hwit, C8_monotonic_checkpoint (some 50) none [(envEmptyFetch, 100)] hwit⟩

/-- A chat status send never touches the checkpoint state. -/
theorem chatSend_frame (env : Env) (st : St) (msg : String) :
    (chatSend env st msg).1.fsCheck = st.fsCheck ∧
    (chatSend env st msg).1.fsUuid = st.fsUuid ∧
    (chatSend env st msg).1.checkWrites = st.checkWrites ∧
    (chatSend env st msg).1.uuidWrites = st.uuidWrites := by
  unfold chatSend
  split <;> simp

/-- The period-trigger audio attempt never touches the checkpoint state. -/
theorem attemptAudioPeriod_frame (env : Env) (st : St) (call : CallRecord) (m : String) :
    (attemptAudioPeriod env st call m).2.fsCheck = st.fsCheck ∧
    (attemptAudioPeriod env st call m).2.fsUuid = st.fsUuid ∧
    (attemptAudioPeriod env st call m).2.checkWrites = st.checkWrites ∧
    (attemptAudioPeriod env st call m).2.uuidWrites = st.uuidWrites := by
  unfold attemptAudioPeriod
  split
  · split
    · split <;> simp
    · simp
  · simp

/-- The period-trigger text send with its handlers never touches the
checkpoint state. -/
theorem sendTextPeriod_frame (env : Env) (st1 : St) (m : String) :
    (sendTextPeriod env st1 m).1.fsCheck = st1.fsCheck ∧
    (sendTextPeriod env st1 m).1.fsUuid = st1.fsUuid ∧
    (sendTextPeriod env st1 m).1.checkWrites = st1.checkWrites ∧
    (sendTextPeriod env st1 m).1.uuidWrites = st1.uuidWrites := by
  unfold sendTextPeriod
  dsimp only
  split
  · simp
  · split
    · split
      · simp
      · split
        · simp
        · split <;> simp
    · split <;> simp
  · split <;> simp

/-- One period-trigger record never touches the checkpoint state. -/
theorem processCallPeriod_frame (env : Env) (st : St) (call : CallRecord) :
    (processCallPeriod env st call).1.fsCheck = st.fsCheck ∧
    (processCallPeriod env st call).1.fsUuid = st.fsUuid ∧
    (processCallPeriod env st call).1.checkWrites = st.checkWrites ∧
    (processCallPeriod env st call).1.uuidWrites = st.uuidWrites := by
  have hA := attemptAudioPeriod_frame env st call (format_call_details env.fmtTime call)
  unfold processCallPeriod
  dsimp only
  rcases hEq : attemptAudioPeriod env st call (format_call_details env.fmtTime call)
    with ⟨b, st1⟩
  rw [hEq] at hA
  dsimp only at hA
  obtain ⟨h1, h2, h3, h4⟩ := hA
  cases b
  · have hT := sendTextPeriod_frame env st1 (format_call_details env.fmtTime call)
    exact ⟨hT.1.trans h1, hT.2.1.trans h2, hT.2.2.1.trans h3, hT.2.2.2.trans h4⟩
  · exact ⟨h1, h2, h3, h4⟩

/-- The period-trigger loop never touches the checkpoint state. -/
theorem periodLoop_frame (env : Env) : ∀ (l : List CallRecord) (st : St),
    (periodLoop env st l).1.fsCheck = st.fsCheck ∧
    (periodLoop env st l).1.fsUuid = st.fsUuid ∧
    (periodLoop env st l).1.checkWrites = st.checkWrites ∧
    (periodLoop env st l).1.uuidWrites = st.uuidWrites := by
  intro l
  induction l with
  | nil => intro st; simp [periodLoop]
  | cons call rest ih =>
    intro st
    have hC := processCallPeriod_frame env st call
    unfold periodLoop
    rcases hEq : processCallPeriod env st call with ⟨st1, e⟩
    rw [hEq] at hC
    dsimp only at hC
    rcases e with _ | e
    · have hR := ih st1
      exact ⟨hR.1.trans hC.1, hR.2.1.trans hC.2.1, hR.2.2.1.trans hC.2.2.1,
        hR.2.2.2.trans hC.2.2.2⟩
    · exact hC

/-- Claim C10: get_period_calls never reads or writes the checkpoint files:
whatever records it fetches and however the sends go, the stored
last-check timestamp and last-call uuid after the invocation (and their
write logs) are exactly what they were before. -/
theorem C10_period_checkpoint_frame (env : Env) (start_time end_time : Int)
    (period_name : String) (fsCheck : Option Int) (fsUuid : Option String) :
    (get_period_calls env start_time end_time period_name fsCheck fsUuid).1.fsCheck = fsCheck ∧
    (get_period_calls env start_time end_time period_name fsCheck fsUuid).1.fsUuid = fsUuid ∧
    (get_period_calls env start_time end_time period_name fsCheck fsUuid).1.checkWrites = [] ∧
    (get_period_calls env start_time end_time period_name fsCheck fsUuid).1.uuidWrites = [] := by
  unfold get_period_calls
  dsimp only
  split
  · -- authentication failed: one chat send
    rcases hEq : chatSend env (initSt fsCheck fsUuid)
        "Failed to authenticate with OnlinePBX API" with ⟨st1, e⟩
    have hC := chatSend_frame env (initSt fsCheck fsUuid)
      "Failed to authenticate with OnlinePBX API"
    rw [hEq] at hC
    simpa [initSt] using hC
  · split
    · -- no records: one chat send
      rcases hEq : chatSend env (initSt fsCheck fsUuid)
          ("No calls found for " ++ period_name) with ⟨st1, e⟩
      have hC := chatSend_frame env (initSt fsCheck fsUuid)
        ("No calls found for " ++ period_name)
      rw [hEq] at hC
      simpa [initSt] using hC
    · -- records present
      rcases hEq : chatSend env (initSt fsCheck fsUuid)
          ("Found " ++ toString (env.callDetails.getD []).length ++ " calls for " ++
            period_name ++ ". Sending to channel...") with ⟨st1, e⟩
      have hC := chatSend_frame env (initSt fsCheck fsUuid)
        ("Found " ++ toString (env.callDetails.getD []).length ++ " calls for " ++
          period_name ++ ". Sending to channel...")
      rw [hEq] at hC
      dsimp only at hC
      rcases e with _ | e
      · have hL := periodLoop_frame env (sortRecords (env.callDetails.getD []))
          { st1 with scratch := archiveScratch env }
        rcases hEq2 : periodLoop env { st1 with scratch := archiveScratch env }
            (sortRecords (env.callDetails.getD [])) with ⟨st3, e2⟩
        rw [hEq2] at hL
        dsimp only at hL
        rcases e2 with _ | e2
        · have hF := cleanupTempDir_frame env st3
          rcases hEq3 : chatSend env (cleanupTempDir env st3)
              ("Sent " ++ toString (cleanupTempDir env st3).count ++
                " calls to the channel") with ⟨st5, e3⟩
          have hC3 := chatSend_frame env (cleanupTempDir env st3)
            ("Sent " ++ toString (cleanupTempDir env st3).count ++ " calls to the channel")
          rw [hEq3] at hC3
          dsimp only at hC3
          rcases e3 with _ | e3 <;>
          · refine ⟨?_, ?_, ?_, ?_⟩ <;>
              simp_all [initSt]
        · refine ⟨?_, ?_, ?_, ?_⟩ <;> simp_all [initSt]
      · simpa [initSt] using hC

end OnlineBPX
